import Mathlib

/-!
# Problem microservice: shallow embedding and verification

This file embeds the problem-tracking microservice (`src/index.ts`) in Lean 4
and proves properties of its HTTP handlers and Firestore trigger.

The document store is modelled explicitly:
- the `users` collection is a list of `Technician` records, whose list order
  is the query iteration order;
- the `problems` collection is an association list from document ids to
  `Problem` records.

Each Express handler becomes a pure function from a database state and the
request parameters to a new database state, a response, and a log.  Outbound
collaborator calls (the notification e-mail, the peer availability update)
are modelled by a boolean flag saying whether the call succeeds; a failing
call only contributes a log entry, mirroring the `try/catch` blocks that
swallow those errors.  Server timestamps are modelled as `Nat` parameters.
-/

namespace ProblemService

/-- A user document with the fields the service reads and writes.
Mirrors the technician documents in the `users` collection. -/
structure Technician where
  id : String
  role : String
  speciality : String
  isAvailable : Bool
  allProblems : List String
  currentProblem : Option String
  lastAssigned : Option Nat
  email : Option String
deriving Repr, DecidableEq

/-- The `Problem` document model from `src/index.ts`. -/
structure Problem where
  chefId : String
  description : String
  type : String
  status : String
  createdAt : Option Nat
  isPredefined : Bool
  assignedTechnician : Option String
  solvedAt : Option Nat
deriving Repr, DecidableEq

/-- The Firestore database state seen by this service. -/
structure DB where
  users : List Technician
  problems : List (String × Problem)
deriving Repr, DecidableEq

/-- `doc.data().allProblems?.length || 0`. -/
def workload (t : Technician) : Nat := t.allProblems.length

/-- The technician query of `POST /problems`:
`role == "technicien" && speciality == type && isAvailable == true`. -/
def qualifiedTechs (users : List Technician) (ty : String) : List Technician :=
  users.filter (fun t => t.role == "technicien" && t.speciality == ty && t.isAvailable)

/-- The `forEach` scan of `POST /problems`: a running minimum over workloads,
starting from `assignedTechnicianId = null`, `minWorkload = Infinity`
(modelled as `none`).  The strict `<` keeps the first technician that attains
the running minimum. -/
def selectLoop : List Technician → Option String → Option Nat → Option String × Option Nat
  | [], accId, accMin => (accId, accMin)
  | t :: rest, accId, accMin =>
    match accMin with
    | none => selectLoop rest (some t.id) (some (workload t))
    | some m =>
      if workload t < m then selectLoop rest (some t.id) (some (workload t))
      else selectLoop rest accId (some m)

/-- Technician selection in `POST /problems` (steps 1-2 of the handler). -/
def selectTech (techs : List Technician) : Option String × Option Nat :=
  selectLoop techs none none

/-- JavaScript truthiness of a nullable string (`null`, `undefined` and `""`
are falsy). -/
def truthyOpt : Option String → Bool
  | none => false
  | some s => !(s == "")

/-- `FieldValue.arrayUnion`: append the element when not already present. -/
def arrayUnion (xs : List String) (x : String) : List String :=
  if x ∈ xs then xs else xs ++ [x]

/-- Step 4 of `POST /problems`: the technician document update
(`allProblems` array-union, `currentProblem`, `lastAssigned`, recomputed
`isAvailable`). -/
def updateTech (users : List Technician) (tid pid : String) (now : Nat) : List Technician :=
  users.map (fun u =>
    if u.id == tid then
      { u with
        allProblems := arrayUnion u.allProblems pid
        currentProblem := some pid
        lastAssigned := some now
        isAvailable := decide (u.allProblems.length + 1 < 3) }
    else u)

/-- The fresh `techRef.get()` read of a technician's e-mail field. -/
def emailOf (users : List Technician) (tid : String) : Option String :=
  (users.find? (fun u => u.id == tid)).bind (fun u => u.email)

/-- `assignedTechnicianId || "no available technician"`. -/
def assignedToText : Option String → String
  | none => "no available technician"
  | some i => i

/-- The display of `minWorkload` inside the response message (the JavaScript
template literal prints `Infinity` for the untouched initial value). -/
def workloadText : Option Nat → String
  | none => "Infinity"
  | some m => toString m

/-- The `message` field of the `POST /problems` response. -/
def postMessage (sel : Option String × Option Nat) : String :=
  match sel.1 with
  | none => "No available technicians found"
  | some _ => "Assigned to technician with " ++ workloadText sel.2 ++ " existing problems"

/-- The JSON body returned by `POST /problems`. -/
structure PostResponse where
  statusCode : Nat
  id : String
  assignedTo : String
  currentWorkload : Option Nat
  message : String
deriving Repr, DecidableEq

/-- Outcome of a `POST /problems` request: new store state, response, log. -/
structure PostResult where
  db : DB
  response : PostResponse
  log : List String
deriving Repr, DecidableEq

/-- The `POST /problems` handler.  `pid` is the store-generated document id,
`now` the server timestamp, `emailOk` whether the outbound notification call
succeeds (its failure is caught and only logged). -/
def postProblems (db : DB) (chefId title description ty pid : String)
    (now : Nat) (emailOk : Bool) : PostResult :=
  let sel := selectTech (qualifiedTechs db.users ty)
  let newProblem : Problem :=
    { chefId := chefId
      description := if description == "" then title else description
      type := ty
      status := "waiting"
      createdAt := some now
      isPredefined := false
      assignedTechnician := sel.1
      solvedAt := none }
  { db :=
      { users :=
          match sel.1 with
          | some tid => updateTech db.users tid pid now
          | none => db.users
        problems := db.problems ++ [(pid, newProblem)] }
    response :=
      { statusCode := 201
        id := pid
        assignedTo := assignedToText sel.1
        currentWorkload := sel.2
        message := postMessage sel }
    log :=
      match sel.1 with
      | some tid =>
        if truthyOpt (emailOf db.users tid) then
          if emailOk then [] else ["Email sending failed"]
        else []
      | none => [] }

/-- The JSON body returned by `POST /problems/predefined`. -/
structure PredefinedResponse where
  statusCode : Nat
  id : String
  message : String
  assignedTechnician : Option String
  status : String
deriving Repr, DecidableEq

/-- The `POST /problems/predefined` handler. -/
def postPredefined (db : DB) (title ty description pid : String) (now : Nat) :
    DB × PredefinedResponse :=
  ({ users := db.users
     problems := db.problems ++
       [(pid,
         { chefId := "system"
           description := if description == "" then title else description
           type := ty
           status := "waiting"
           createdAt := some now
           isPredefined := true
           assignedTechnician := none
           solvedAt := none })] },
   { statusCode := 201
     id := pid
     message := "Predefined problem created successfully"
     assignedTechnician := none
     status := "waiting" })

/-- Point read of the `problems` collection by document id. -/
def lookupProblem (problems : List (String × Problem)) (pid : String) : Option Problem :=
  (problems.find? (fun q => q.1 == pid)).map (fun q => q.2)

/-- The status/solvedAt update written by `PUT /problems/:id`:
`{ status }` plus `solvedAt` exactly when the new status is `"solved"`. -/
def setStatus (p : Problem) (status : String) (now : Nat) : Problem :=
  { p with
    status := status
    solvedAt := if status == "solved" then some now else p.solvedAt }

/-- The JSON body returned by `PUT /problems/:id`. -/
structure PutResponse where
  statusCode : Nat
  message : String
  technicianUpdated : Bool
deriving Repr, DecidableEq

/-- Outcome of a `PUT /problems/:id` request. -/
structure PutResult where
  db : DB
  response : PutResponse
  log : List String
deriving Repr, DecidableEq

/-- The `PUT /problems/:id` handler.  `peerOk` is whether the outbound
availability call to the user-management service succeeds; on success that
peer writes the technician's availability back into the shared `users`
collection.  A `problemRef.update` on a missing document throws and is
caught by the outer handler (HTTP 500). -/
def putProblem (db : DB) (pid status : String) (now : Nat) (peerOk : Bool) : PutResult :=
  let problemData := lookupProblem db.problems pid
  let assignedTechnicianId := problemData.bind (fun p => p.assignedTechnician)
  let okUpdate := problemData.isSome
  let doPeer := (status == "solved") && truthyOpt assignedTechnicianId
  let techExists :=
    match assignedTechnicianId with
    | some tid => db.users.any (fun u => u.id == tid)
    | none => false
  { db :=
      { users :=
          if okUpdate && doPeer && techExists && peerOk then
            db.users.map (fun u =>
              if some u.id == assignedTechnicianId then
                { u with isAvailable := true, currentProblem := none }
              else u)
          else db.users
        problems :=
          if okUpdate then
            db.problems.map (fun q =>
              if q.1 == pid then (q.1, setStatus q.2 status now) else q)
          else db.problems }
    response :=
      if okUpdate then
        { statusCode := 200
          message := "Problem status updated successfully"
          technicianUpdated := doPeer }
      else
        { statusCode := 500
          message := "Failed to update problem"
          technicianUpdated := false }
    log :=
      if okUpdate then
        if doPeer && techExists && !peerOk then
          ["Error updating technician availability"]
        else []
      else ["Error updating problem"] }

/-- The JSON body returned by `DELETE /problems/:id`. -/
structure DeleteResponse where
  statusCode : Nat
  message : String
deriving Repr, DecidableEq

/-- The `DELETE /problems/:id` handler: store delete-by-id (a no-op on a
missing id) followed by an unconditional success response. -/
def deleteProblem (db : DB) (pid : String) : DB × DeleteResponse :=
  ({ users := db.users
     problems := db.problems.filter (fun q => !(q.1 == pid)) },
   { statusCode := 200, message := "Problem deleted successfully" })

/-- The technician query of the Firestore trigger: `role == "technicien" &&
speciality == type`, with no availability or workload condition. -/
def techniciansByType (users : List Technician) (ty : String) : List Technician :=
  users.filter (fun t => t.role == "technicien" && t.speciality == ty)

/-- The `assignTechnicianToProblem` Firestore trigger, fired on creation of a
problem document.  `limit(1)` is the head of the filtered query; the
`update` on the problem document writes `assignedTechnician`. -/
def assignTechnicianToProblem (db : DB) (problemId : String) (problemData : Problem) : DB :=
  if problemData.isPredefined then db
  else
    match (techniciansByType db.users problemData.type).head? with
    | none => db
    | some t =>
      { users := db.users
        problems := db.problems.map (fun q =>
          if q.1 == problemId then (q.1, { q.2 with assignedTechnician := some t.id }) else q) }

/-! ### Concrete store states used by witnesses and counterexamples -/

/-- Technician `T` of the spec scenario: speciality plumbing, two existing
problems, available. -/
def techT : Technician :=
  { id := "T", role := "technicien", speciality := "plumbing", isAvailable := true
    allProblems := ["a1", "a2"], currentProblem := some "a2", lastAssigned := some 1
    email := some "t@example.com" }

/-- Technician `U` of the spec scenario: speciality plumbing, no problems,
available. -/
def techU : Technician :=
  { id := "U", role := "technicien", speciality := "plumbing", isAvailable := true
    allProblems := [], currentProblem := none, lastAssigned := none, email := none }

/-- A store with the two plumbing technicians of the spec scenario. -/
def exDB1 : DB := { users := [techT, techU], problems := [] }

/-- A technician with matching speciality but unavailable and at capacity. -/
def techY : Technician :=
  { id := "Y", role := "technicien", speciality := "plumbing", isAvailable := false
    allProblems := ["b1", "b2", "b3"], currentProblem := some "b3", lastAssigned := some 2
    email := none }

/-- A non-predefined problem document created with an assignee already set. -/
def assignedProblem : Problem :=
  { chefId := "c1", description := "leak", type := "plumbing", status := "waiting"
    createdAt := some 1, isPredefined := false, assignedTechnician := some "X"
    solvedAt := none }

/-- Store state at trigger time holding `assignedProblem`. -/
def exDB5 : DB := { users := [techY], problems := [("p1", assignedProblem)] }

/-- An already-solved problem with `solvedAt = 5`, assigned to `T`. -/
def solvedProblem : Problem :=
  { chefId := "c1", description := "leak", type := "plumbing", status := "solved"
    createdAt := some 1, isPredefined := false, assignedTechnician := some "T"
    solvedAt := some 5 }

/-- A store holding the solved problem and its technician. -/
def exDB6 : DB := { users := [techT], problems := [("p1", solvedProblem)] }

/-- The empty store. -/
def emptyDB : DB := { users := [], problems := [] }

/-- Specification-side running minimum, mirroring the `if (cur < min)` update
of the handler: a left fold of `fun a t => if workload t < a then workload t
else a`, seeded with `m`. -/
def minWorkloadOf (techs : List Technician) (m : Nat) : Nat :=
  techs.foldl (fun a t => if workload t < a then workload t else a) m

lemma minWorkloadOf_cons (t : Technician) (rest : List Technician) (m : Nat) :
    minWorkloadOf (t :: rest) m
      = minWorkloadOf rest (if workload t < m then workload t else m) := rfl

lemma minWorkloadOf_le (techs : List Technician) (m : Nat) :
    minWorkloadOf techs m ≤ m := by
  induction techs generalizing m with
  | nil => exact Nat.le_refl m
  | cons t rest ih =>
    rw [minWorkloadOf_cons]
    by_cases h : workload t < m
    · rw [if_pos h]
      exact Nat.le_trans (ih (workload t)) (Nat.le_of_lt h)
    · rw [if_neg h]
      exact ih m

lemma minWorkloadOf_le_mem (techs : List Technician) (m : Nat) :
    ∀ u ∈ techs, minWorkloadOf techs m ≤ workload u := by
  induction techs generalizing m with
  | nil => intro u hu; cases hu
  | cons t rest ih =>
    intro u hu
    rw [minWorkloadOf_cons]
    rcases List.mem_cons.mp hu with h | h
    · subst h
      by_cases hc : workload u < m
      · rw [if_pos hc]
        exact minWorkloadOf_le rest (workload u)
      · rw [if_neg hc]
        exact Nat.le_trans (minWorkloadOf_le rest m) (Nat.le_of_not_lt hc)
    · by_cases hc : workload t < m
      · rw [if_pos hc]
        exact ih (workload t) u h
      · rw [if_neg hc]
        exact ih m u h

lemma selectLoop_min (techs : List Technician) (i : String) (m : Nat) :
    (selectLoop techs (some i) (some m)).2 = some (minWorkloadOf techs m) := by
  induction techs generalizing i m with
  | nil => rfl
  | cons t rest ih =>
    simp only [selectLoop]
    by_cases h : workload t < m
    · rw [if_pos h, ih, minWorkloadOf_cons, if_pos h]
    · rw [if_neg h, ih, minWorkloadOf_cons, if_neg h]

lemma find?_head (p : Technician → Bool) (t : Technician) (rest : List Technician)
    (h : p t = true) : (t :: rest).find? p = some t := by
  simp [List.find?_cons, h]

lemma find?_tail (p : Technician → Bool) (t : Technician) (rest : List Technician)
    (h : p t = false) : (t :: rest).find? p = rest.find? p := by
  simp [List.find?_cons, h]

lemma pairFind_head (pid : String) (q : String × Problem) (rest : List (String × Problem))
    (h : (q.1 == pid) = true) : (q :: rest).find? (fun r => r.1 == pid) = some q := by
  simp [List.find?_cons, h]

lemma pairFind_tail (pid : String) (q : String × Problem) (rest : List (String × Problem))
    (h : (q.1 == pid) = false) :
    (q :: rest).find? (fun r => r.1 == pid) = rest.find? (fun r => r.1 == pid) := by
  simp [List.find?_cons, h]

lemma selectLoop_id (techs : List Technician) (i : String) (m : Nat) :
    (selectLoop techs (some i) (some m)).1 =
      (if minWorkloadOf techs m < m then
        (techs.find? (fun u => workload u == minWorkloadOf techs m)).map Technician.id
       else some i) := by
  induction techs generalizing i m with
  | nil =>
    simp [selectLoop, minWorkloadOf]
  | cons t rest ih =>
    simp only [selectLoop]
    by_cases h : workload t < m
    · rw [if_pos h, ih, minWorkloadOf_cons, if_pos h]
      have hub : minWorkloadOf rest (workload t) ≤ workload t :=
        minWorkloadOf_le rest (workload t)
      by_cases h2 : minWorkloadOf rest (workload t) < workload t
      · have hlt2 : minWorkloadOf rest (workload t) < m := by omega
        rw [if_pos h2, if_pos hlt2]
        have hne : (workload t == minWorkloadOf rest (workload t)) = false := by
          simp only [beq_eq_false_iff_ne]
          omega
        rw [find?_tail _ _ _ hne]
      · have hlt2 : minWorkloadOf rest (workload t) < m := by omega
        rw [if_neg h2, if_pos hlt2]
        have hpt : (workload t == minWorkloadOf rest (workload t)) = true := by
          simp only [beq_iff_eq]
          omega
        rw [find?_head _ _ _ hpt]
        rfl
    · rw [if_neg h, ih, minWorkloadOf_cons, if_neg h]
      by_cases h2 : minWorkloadOf rest m < m
      · rw [if_pos h2, if_pos h2]
        have hne : (workload t == minWorkloadOf rest m) = false := by
          simp only [beq_eq_false_iff_ne]
          omega
        rw [find?_tail _ _ _ hne]
      · rw [if_neg h2, if_neg h2]

lemma minWorkloadOf_attained (techs : List Technician) (m : Nat) :
    minWorkloadOf techs m = m ∨ ∃ u ∈ techs, workload u = minWorkloadOf techs m := by
  induction techs generalizing m with
  | nil => exact Or.inl rfl
  | cons t rest ih =>
    by_cases hc : workload t < m
    · rw [minWorkloadOf_cons, if_pos hc]
      rcases ih (workload t) with h | h
      · exact Or.inr ⟨t, List.mem_cons_self t rest, h.symm⟩
      · rcases h with ⟨u, hu, hw⟩
        exact Or.inr ⟨u, List.mem_cons_of_mem t hu, hw⟩
    · rw [minWorkloadOf_cons, if_neg hc]
      rcases ih m with h | h
      · exact Or.inl h
      · rcases h with ⟨u, hu, hw⟩
        exact Or.inr ⟨u, List.mem_cons_of_mem t hu, hw⟩

/-- Characterisation of `selectTech` on a non-empty candidate list: it returns
the id of the first technician attaining the minimum workload, together with
that minimum workload. -/
lemma selectTech_nonempty (t : Technician) (rest : List Technician) :
    ∃ tm, (t :: rest).find? (fun u => workload u == minWorkloadOf rest (workload t)) = some tm ∧
      selectTech (t :: rest) = (some tm.id, some (minWorkloadOf rest (workload t))) ∧
      workload tm = minWorkloadOf rest (workload t) ∧
      ∀ u ∈ t :: rest, minWorkloadOf rest (workload t) ≤ workload u := by
  set M := minWorkloadOf rest (workload t) with hM
  have hub : M ≤ workload t := minWorkloadOf_le rest (workload t)
  have hlb : ∀ u ∈ t :: rest, M ≤ workload u := by
    intro u hu
    rcases List.mem_cons.mp hu with h | h
    · subst h; exact hub
    · exact minWorkloadOf_le_mem rest (workload t) u h
  have hsel : selectTech (t :: rest) = selectLoop rest (some t.id) (some (workload t)) := rfl
  have h2 : (selectTech (t :: rest)).2 = some M := by
    rw [hsel, selectLoop_min]
  by_cases hlt : M < workload t
  · rcases minWorkloadOf_attained rest (workload t) with h | h
    · omega
    · rcases h with ⟨u, hu, hw⟩
      have hfind : (rest.find? (fun u => workload u == M)).isSome := by
        rw [List.find?_isSome]
        exact ⟨u, hu, by simp [hw]⟩
      rcases Option.isSome_iff_exists.mp hfind with ⟨tm, htm⟩
      refine ⟨tm, ?_, ?_, ?_, hlb⟩
      · have hne : (workload t == M) = false := by
          simp only [beq_eq_false_iff_ne]; omega
        rw [find?_tail _ _ _ hne]
        exact htm
      · have h1 : (selectTech (t :: rest)).1 = some tm.id := by
          rw [hsel, selectLoop_id, if_pos hlt, htm]
          rfl
        rcases hfe : selectTech (t :: rest) with ⟨a, b⟩
        rw [hfe] at h1 h2
        simp at h1 h2
        rw [h1, h2]
      · have := List.find?_some htm
        simpa [beq_iff_eq] using this
  · have heq : workload t = M := Nat.le_antisymm (Nat.le_of_not_lt hlt) hub
    refine ⟨t, ?_, ?_, heq, hlb⟩
    · have hpt : (workload t == M) = true := by simp [beq_iff_eq, heq]
      rw [find?_head _ _ _ hpt]
    · have h1 : (selectTech (t :: rest)).1 = some t.id := by
        rw [hsel, selectLoop_id, if_neg hlt]
      rcases hfe : selectTech (t :: rest) with ⟨a, b⟩
      rw [hfe] at h1 h2
      simp at h1 h2
      rw [h1, h2]

lemma lookupProblem_update (problems : List (String × Problem)) (pid : String)
    (f : Problem → Problem) (p : Problem) (h : lookupProblem problems pid = some p) :
    lookupProblem (problems.map (fun q => if q.1 == pid then (q.1, f q.2) else q)) pid
      = some (f p) := by
  induction problems with
  | nil => simp [lookupProblem] at h
  | cons q rest ih =>
    cases hb : (q.1 == pid) with
    | true =>
      have h1 : lookupProblem (q :: rest) pid = some q.2 := by
        show ((q :: rest).find? (fun r => r.1 == pid)).map (fun r => r.2) = some q.2
        rw [pairFind_head pid q rest hb]
        rfl
      rw [h1] at h
      have h2 : q.2 = p := Option.some.inj h
      show lookupProblem
        ((if q.1 == pid then (q.1, f q.2) else q) ::
          rest.map (fun q => if q.1 == pid then (q.1, f q.2) else q)) pid = some (f p)
      rw [if_pos hb]
      show (((q.1, f q.2) ::
          rest.map (fun q => if q.1 == pid then (q.1, f q.2) else q)).find?
            (fun r => r.1 == pid)).map (fun r => r.2) = some (f p)
      rw [pairFind_head pid (q.1, f q.2)
        (rest.map (fun q => if q.1 == pid then (q.1, f q.2) else q)) hb, h2]
      rfl
    | false =>
      have h1 : lookupProblem (q :: rest) pid = lookupProblem rest pid := by
        show ((q :: rest).find? (fun r => r.1 == pid)).map (fun r => r.2)
          = (rest.find? (fun r => r.1 == pid)).map (fun r => r.2)
        rw [pairFind_tail pid q rest hb]
      rw [h1] at h
      show lookupProblem
        ((if q.1 == pid then (q.1, f q.2) else q) ::
          rest.map (fun q => if q.1 == pid then (q.1, f q.2) else q)) pid = some (f p)
      rw [if_neg (by simp [hb])]
      show ((q :: rest.map (fun q => if q.1 == pid then (q.1, f q.2) else q)).find?
          (fun r => r.1 == pid)).map (fun r => r.2) = some (f p)
      rw [pairFind_tail pid q
        (rest.map (fun q => if q.1 == pid then (q.1, f q.2) else q)) hb]
      exact ih h

/-- C1: for a non-empty set of technicians with role `technicien`, speciality
equal to the requested type and `isAvailable = true`, `POST /problems`
assigns the new problem to a technician whose workload is minimal over that
set, and ties are broken deterministically in favour of the first technician
in query iteration order (the chosen technician is the first one whose
workload equals the minimum). -/
theorem post_assigns_min_workload (db : DB) (chefId title description ty pid : String)
    (now : Nat) (emailOk : Bool) (h : qualifiedTechs db.users ty ≠ []) :
    ∃ t, t ∈ qualifiedTechs db.users ty ∧
      (postProblems db chefId title description ty pid now emailOk).response.assignedTo = t.id ∧
      (∀ u ∈ qualifiedTechs db.users ty, workload t ≤ workload u) ∧
      (qualifiedTechs db.users ty).find? (fun u => workload u == workload t) = some t := by
  rcases hq : qualifiedTechs db.users ty with _ | ⟨t0, rest⟩
  · exact absurd hq h
  · rcases selectTech_nonempty t0 rest with ⟨tm, hfind, hsel, hwl, hlb⟩
    refine ⟨tm, ?_, ?_, ?_, ?_⟩
    · exact List.mem_of_find?_eq_some hfind
    · show assignedToText (selectTech (qualifiedTechs db.users ty)).1 = tm.id
      rw [hq, hsel]
      rfl
    · intro u hu
      rw [hwl]
      exact hlb u hu
    · rw [hwl]
      exact hfind

/-- Witness for C1 at the spec's own scenario: technicians `T` (2 problems)
and `U` (0 problems), both plumbing and available. -/
theorem post_assigns_min_workload_witness :
    qualifiedTechs exDB1.users "plumbing" ≠ [] ∧
    ∃ t, t ∈ qualifiedTechs exDB1.users "plumbing" ∧
      (postProblems exDB1 "c1" "leak" "big leak" "plumbing" "p9" 7 true).response.assignedTo = t.id ∧
      (∀ u ∈ qualifiedTechs exDB1.users "plumbing", workload t ≤ workload u) ∧
      (qualifiedTechs exDB1.users "plumbing").find? (fun u => workload u == workload t) = some t :=
  ⟨by decide,
   post_assigns_min_workload exDB1 "c1" "leak" "big leak" "plumbing" "p9" 7 true (by decide)⟩

lemma arrayUnion_fresh (xs : List String) (x : String) (h : x ∉ xs) :
    arrayUnion xs x = xs ++ [x] := by
  simp [arrayUnion, h]

lemma updateTech_mem (users : List Technician) (t : Technician) (pid : String) (now : Nat)
    (ht : t ∈ users) :
    { t with
      allProblems := arrayUnion t.allProblems pid,
      currentProblem := some pid, lastAssigned := some now,
      isAvailable := decide (t.allProblems.length + 1 < 3) } ∈ updateTech users t.id pid now := by
  have hmem := List.mem_map_of_mem (fun u =>
    if u.id == t.id then
      { u with
        allProblems := arrayUnion u.allProblems pid,
        currentProblem := some pid, lastAssigned := some now,
        isAvailable := decide (u.allProblems.length + 1 < 3) } else u) ht
  simpa [updateTech] using hmem

/-- C2: after a successful assignment by `POST /problems`, the selected
technician's `allProblems` gains the new problem id (its length grows by
exactly 1), `currentProblem` becomes the new id, `lastAssigned` is stamped
with the server timestamp, and the recomputed `isAvailable` is false exactly
when the new workload count reaches the capacity threshold 3. -/
theorem post_updates_selected_technician (db : DB) (chefId title description ty pid : String)
    (now : Nat) (emailOk : Bool)
    (h : qualifiedTechs db.users ty ≠ [])
    (hfresh : ∀ u ∈ db.users, pid ∉ u.allProblems) :
    ∃ t, t ∈ qualifiedTechs db.users ty ∧
      (postProblems db chefId title description ty pid now emailOk).response.assignedTo = t.id ∧
      ∃ t2, t2 ∈ (postProblems db chefId title description ty pid now emailOk).db.users ∧
        t2.id = t.id ∧
        pid ∈ t2.allProblems ∧
        t2.allProblems.length = t.allProblems.length + 1 ∧
        t2.currentProblem = some pid ∧
        t2.lastAssigned = some now ∧
        (t2.isAvailable = false ↔ 3 ≤ t2.allProblems.length) := by
  rcases hq : qualifiedTechs db.users ty with _ | ⟨t0, rest⟩
  · exact absurd hq h
  · rcases selectTech_nonempty t0 rest with ⟨tm, hfind, hsel, hwl, hlb⟩
    have htm_mem : tm ∈ t0 :: rest := List.mem_of_find?_eq_some hfind
    have htm_users : tm ∈ db.users := by
      have hqt : tm ∈ qualifiedTechs db.users ty := by
        rw [hq]
        exact htm_mem
      exact List.mem_of_mem_filter hqt
    have hfreshtm : pid ∉ tm.allProblems := hfresh tm htm_users
    have husers : (postProblems db chefId title description ty pid now emailOk).db.users
        = updateTech db.users tm.id pid now := by
      show (match (selectTech (qualifiedTechs db.users ty)).1 with
        | some tid => updateTech db.users tid pid now
        | none => db.users) = updateTech db.users tm.id pid now
      rw [hq, hsel]
    refine ⟨tm, htm_mem, ?_, ?_⟩
    · show assignedToText (selectTech (qualifiedTechs db.users ty)).1 = tm.id
      rw [hq, hsel]
      rfl
    · refine ⟨{ tm with
                allProblems := arrayUnion tm.allProblems pid,
                currentProblem := some pid, lastAssigned := some now,
                isAvailable := decide (tm.allProblems.length + 1 < 3) },
        ?_, rfl, ?_, ?_, rfl, rfl, ?_⟩
      · rw [husers]
        exact updateTech_mem db.users tm pid now htm_users
      · show pid ∈ arrayUnion tm.allProblems pid
        rw [arrayUnion_fresh _ _ hfreshtm]
        exact List.mem_append_right _ (List.mem_singleton.mpr rfl)
      · show (arrayUnion tm.allProblems pid).length = tm.allProblems.length + 1
        rw [arrayUnion_fresh _ _ hfreshtm]
        simp
      · show decide (tm.allProblems.length + 1 < 3) = false
          ↔ 3 ≤ (arrayUnion tm.allProblems pid).length
        rw [arrayUnion_fresh _ _ hfreshtm]
        simp only [decide_eq_false_iff_not, List.length_append, List.length_cons,
          List.length_nil]
        omega

/-- Witness for C2 at the spec scenario store: the new problem id `p9` is
fresh and the plumbing candidate set is non-empty. -/
theorem post_updates_selected_technician_witness :
    qualifiedTechs exDB1.users "plumbing" ≠ [] ∧
    (∀ u ∈ exDB1.users, "p9" ∉ u.allProblems) ∧
    ∃ t, t ∈ qualifiedTechs exDB1.users "plumbing" ∧
      (postProblems exDB1 "c1" "leak" "big" "plumbing" "p9" 7 true).response.assignedTo = t.id ∧
      ∃ t2, t2 ∈ (postProblems exDB1 "c1" "leak" "big" "plumbing" "p9" 7 true).db.users ∧
        t2.id = t.id ∧
        "p9" ∈ t2.allProblems ∧
        t2.allProblems.length = t.allProblems.length + 1 ∧
        t2.currentProblem = some "p9" ∧
        t2.lastAssigned = some 7 ∧
        (t2.isAvailable = false ↔ 3 ≤ t2.allProblems.length) :=
  ⟨by decide, by decide,
   post_updates_selected_technician exDB1 "c1" "leak" "big" "plumbing" "p9" 7 true
     (by decide) (by decide)⟩

/-- C3: if no technician matches the requested type with role `technicien`
and `isAvailable = true`, `POST /problems` still succeeds: the problem is
stored with `assignedTechnician = null` and status `waiting`, the response
carries the sentinel assignee and the no-technician message, and no
technician document is touched. -/
theorem post_no_technician_still_succeeds (db : DB) (chefId title description ty pid : String)
    (now : Nat) (emailOk : Bool) (h : qualifiedTechs db.users ty = []) :
    (postProblems db chefId title description ty pid now emailOk).response.statusCode = 201 ∧
    (postProblems db chefId title description ty pid now emailOk).response.assignedTo
      = "no available technician" ∧
    (postProblems db chefId title description ty pid now emailOk).response.message
      = "No available technicians found" ∧
    (postProblems db chefId title description ty pid now emailOk).db.users = db.users ∧
    ∃ p, (pid, p) ∈ (postProblems db chefId title description ty pid now emailOk).db.problems ∧
      p.assignedTechnician = none ∧ p.status = "waiting" ∧ p.isPredefined = false := by
  have hsel : selectTech (qualifiedTechs db.users ty) = (none, none) := by
    rw [h]
    rfl
  refine ⟨rfl, ?_, ?_, ?_, ?_⟩
  · show assignedToText (selectTech (qualifiedTechs db.users ty)).1 = _
    rw [hsel]
    rfl
  · show postMessage (selectTech (qualifiedTechs db.users ty)) = _
    rw [hsel]
    rfl
  · show (match (selectTech (qualifiedTechs db.users ty)).1 with
      | some tid => updateTech db.users tid pid now
      | none => db.users) = db.users
    rw [hsel]
  · refine ⟨{ chefId := chefId,
              description := if description == "" then title else description,
              type := ty, status := "waiting", createdAt := some now,
              isPredefined := false, assignedTechnician := none, solvedAt := none },
      ?_, rfl, rfl, rfl⟩
    show _ ∈ db.problems ++ [(pid,
      { chefId := chefId,
        description := if description == "" then title else description,
        type := ty, status := "waiting", createdAt := some now,
        isPredefined := false,
        assignedTechnician := (selectTech (qualifiedTechs db.users ty)).1,
        solvedAt := none })]
    rw [hsel]
    exact List.mem_append_right _ (List.mem_singleton.mpr rfl)

/-- Witness for C3: no technician has speciality `electrical` in `exDB1`. -/
theorem post_no_technician_still_succeeds_witness :
    qualifiedTechs exDB1.users "electrical" = [] ∧
    (postProblems exDB1 "c1" "outage" "" "electrical" "p2" 9 true).response.assignedTo
      = "no available technician" :=
  ⟨by decide,
   (post_no_technician_still_succeeds exDB1 "c1" "outage" "" "electrical" "p2" 9 true
     (by decide)).2.1⟩

/-- C4: a problem created through `POST /problems/predefined` has
`isPredefined = true`, `assignedTechnician = null` and status `waiting`, and
the store-level trigger leaves the store untouched for such a problem. -/
theorem predefined_created_unassigned (db : DB) (title ty description pid : String) (now : Nat) :
    (postPredefined db title ty description pid now).2.assignedTechnician = none ∧
    (postPredefined db title ty description pid now).2.status = "waiting" ∧
    ∃ p, (pid, p) ∈ (postPredefined db title ty description pid now).1.problems ∧
      p.isPredefined = true ∧ p.assignedTechnician = none ∧ p.status = "waiting" ∧
      ∀ (db2 : DB) (pid2 : String), assignTechnicianToProblem db2 pid2 p = db2 := by
  refine ⟨rfl, rfl, ?_⟩
  refine ⟨{ chefId := "system",
            description := if description == "" then title else description,
            type := ty, status := "waiting", createdAt := some now,
            isPredefined := true, assignedTechnician := none, solvedAt := none },
    ?_, rfl, rfl, rfl, ?_⟩
  · exact List.mem_append_right _ (List.mem_singleton.mpr rfl)
  · intro db2 pid2
    rfl

/-- C5 (counterexample): the trigger does not run only for problem documents
created without an assignee.  `assignedProblem` is created with
`assignedTechnician = "X"`, yet the trigger re-assigns it to the only
speciality-matching technician `"Y"` (who is unavailable and at capacity). -/
theorem trigger_overwrites_existing_assignee :
    assignedProblem.isPredefined = false ∧
    assignedProblem.assignedTechnician = some "X" ∧
    techY.isAvailable = false ∧
    lookupProblem (assignTechnicianToProblem exDB5 "p1" assignedProblem).problems "p1"
      = some { assignedProblem with assignedTechnician := some "Y" } :=
  ⟨rfl, rfl, rfl, rfl⟩

/-- C5 (amended): the trigger fires for every non-predefined problem creation
event regardless of any existing assignee: it skips predefined problems,
queries at most one technician with role `technicien` and speciality equal to
the problem type (with no availability or workload condition), and when one
exists overwrites the problem's `assignedTechnician` with that first match's
id, leaving the technician documents untouched. -/
theorem trigger_first_match_assignment (db : DB) (pid : String) (pdata : Problem)
    (t : Technician) (rest : List Technician)
    (hfilter : techniciansByType db.users pdata.type = t :: rest) :
    (pdata.isPredefined = true → assignTechnicianToProblem db pid pdata = db) ∧
    (pdata.isPredefined = false →
      (assignTechnicianToProblem db pid pdata).users = db.users ∧
      (assignTechnicianToProblem db pid pdata).problems
        = db.problems.map (fun q =>
            if q.1 == pid then (q.1, { q.2 with assignedTechnician := some t.id }) else q)) := by
  constructor
  · intro hp
    simp [assignTechnicianToProblem, hp]
  · intro hp
    constructor
    · simp [assignTechnicianToProblem, hp, hfilter]
    · simp [assignTechnicianToProblem, hp, hfilter]

/-- Witness for the amended C5 at the concrete trigger scenario. -/
theorem trigger_first_match_assignment_witness :
    (assignTechnicianToProblem exDB5 "p1" assignedProblem).users = exDB5.users ∧
    (assignTechnicianToProblem exDB5 "p1" assignedProblem).problems
      = exDB5.problems.map (fun q =>
          if q.1 == "p1" then (q.1, { q.2 with assignedTechnician := some techY.id }) else q) :=
  (trigger_first_match_assignment exDB5 "p1" assignedProblem techY [] rfl).2 rfl

/-- C6 (counterexample): re-solving an already-solved problem overwrites
`solvedAt` with a fresh server timestamp: the problem had `solvedAt = 5` and
after a repeated solved transition at time 10 it has `solvedAt = 10`. -/
theorem resolve_overwrites_solvedAt :
    (lookupProblem exDB6.problems "p1").map Problem.status = some "solved" ∧
    (lookupProblem exDB6.problems "p1").map Problem.solvedAt = some (some 5) ∧
    (lookupProblem (putProblem exDB6 "p1" "solved" 10 true).db.problems "p1").map Problem.solvedAt
      = some (some 10) :=
  ⟨rfl, rfl, rfl⟩

/-- C6 (amended): transitioning a problem to `solved` via `PUT /problems/:id`
sets `solvedAt` to a non-null timestamp, namely the current server time; the
transition is not idempotent: every repetition, also on an already-solved
problem, overwrites `solvedAt` with the current server timestamp. -/
theorem put_solved_stamps_now (db : DB) (pid : String) (now : Nat) (peerOk : Bool)
    (p : Problem) (h : lookupProblem db.problems pid = some p) :
    ∃ p2, lookupProblem (putProblem db pid "solved" now peerOk).db.problems pid = some p2 ∧
      p2.status = "solved" ∧ p2.solvedAt = some now := by
  have hdb : (putProblem db pid "solved" now peerOk).db.problems
      = db.problems.map (fun q =>
          if q.1 == pid then (q.1, setStatus q.2 "solved" now) else q) := by
    simp [putProblem, h]
  refine ⟨setStatus p "solved" now, ?_, rfl, rfl⟩
  rw [hdb]
  exact lookupProblem_update db.problems pid (fun q => setStatus q "solved" now) p h

/-- Witness for the amended C6: re-solving the solved problem `p1` at time 10
stamps `solvedAt = 10`. -/
theorem put_solved_stamps_now_witness :
    ∃ p2, lookupProblem (putProblem exDB6 "p1" "solved" 10 true).db.problems "p1" = some p2 ∧
      p2.status = "solved" ∧ p2.solvedAt = some 10 :=
  put_solved_stamps_now exDB6 "p1" 10 true solvedProblem rfl

/-- C7: a failing outbound collaborator call (the notification e-mail in
`POST /problems`, the peer availability update in `PUT /problems/:id`) never
changes the HTTP response and never rolls back the already-committed store
writes: the results for a failing and a succeeding call agree on the store
and the response, and the request still succeeds. -/
theorem collaborator_failure_isolated (db : DB) (chefId title description ty pid : String)
    (now : Nat) (db2 : DB) (pid2 st : String) (now2 : Nat) :
    (postProblems db chefId title description ty pid now false).db
      = (postProblems db chefId title description ty pid now true).db ∧
    (postProblems db chefId title description ty pid now false).response
      = (postProblems db chefId title description ty pid now true).response ∧
    (postProblems db chefId title description ty pid now false).response.statusCode = 201 ∧
    (putProblem db2 pid2 st now2 false).db.problems
      = (putProblem db2 pid2 st now2 true).db.problems ∧
    (putProblem db2 pid2 st now2 false).response
      = (putProblem db2 pid2 st now2 true).response :=
  ⟨rfl, rfl, rfl, rfl, rfl⟩

/-- C8: `PUT /problems/:id` writes the requested status onto the problem and
stamps `solvedAt` with the server timestamp exactly when the new status is
`solved`; every other field of the problem record is unchanged. -/
theorem put_status_frame (db : DB) (pid status : String) (now : Nat) (peerOk : Bool)
    (p : Problem) (h : lookupProblem db.problems pid = some p) :
    ∃ p2, lookupProblem (putProblem db pid status now peerOk).db.problems pid = some p2 ∧
      p2.status = status ∧
      p2.solvedAt = (if status == "solved" then some now else p.solvedAt) ∧
      p2.assignedTechnician = p.assignedTechnician ∧
      p2.chefId = p.chefId ∧
      p2.description = p.description ∧
      p2.type = p.type ∧
      p2.createdAt = p.createdAt ∧
      p2.isPredefined = p.isPredefined := by
  have hdb : (putProblem db pid status now peerOk).db.problems
      = db.problems.map (fun q =>
          if q.1 == pid then (q.1, setStatus q.2 status now) else q) := by
    simp [putProblem, h]
  refine ⟨setStatus p status now, ?_, rfl, rfl, rfl, rfl, rfl, rfl, rfl, rfl⟩
  rw [hdb]
  exact lookupProblem_update db.problems pid (fun q => setStatus q status now) p h

/-- Witness for C8 at a non-solved transition on the concrete store. -/
theorem put_status_frame_witness :
    ∃ p2, lookupProblem (putProblem exDB6 "p1" "progressing" 11 false).db.problems "p1"
        = some p2 ∧
      p2.status = "progressing" ∧
      p2.solvedAt = (if "progressing" == "solved" then some 11 else solvedProblem.solvedAt) ∧
      p2.assignedTechnician = solvedProblem.assignedTechnician ∧
      p2.chefId = solvedProblem.chefId ∧
      p2.description = solvedProblem.description ∧
      p2.type = solvedProblem.type ∧
      p2.createdAt = solvedProblem.createdAt ∧
      p2.isPredefined = solvedProblem.isPredefined :=
  put_status_frame exDB6 "p1" "progressing" 11 false solvedProblem rfl

/-- C9: `DELETE /problems/:id` always answers success, and on a missing id
the store is unchanged (delete-by-id is a no-op on a miss, not a NotFound). -/
theorem delete_returns_success (db : DB) (pid : String) :
    (deleteProblem db pid).2.statusCode = 200 ∧
    (deleteProblem db pid).2.message = "Problem deleted successfully" ∧
    (lookupProblem db.problems pid = none → (deleteProblem db pid).1 = db) := by
  refine ⟨rfl, rfl, ?_⟩
  intro h
  have h2 : (db.problems.find? (fun q => q.1 == pid)).map (fun r => r.2) = none := h
  have hfind : db.problems.find? (fun q => q.1 == pid) = none :=
    Option.map_eq_none'.mp h2
  have hall := List.find?_eq_none.mp hfind
  show ({ users := db.users,
          problems := db.problems.filter (fun q => !(q.1 == pid)) } : DB) = db
  have hfilter : db.problems.filter (fun q => !(q.1 == pid)) = db.problems := by
    apply List.filter_eq_self.mpr
    intro q hq
    cases hb : (q.1 == pid) with
    | true => exact absurd hb (hall q hq)
    | false => rfl
  rw [hfilter]

/-- Witness for C9: deleting id `zz` from the empty store. -/
theorem delete_returns_success_witness :
    (deleteProblem emptyDB "zz").1 = emptyDB ∧
    (deleteProblem emptyDB "zz").2.statusCode = 200 :=
  ⟨(delete_returns_success emptyDB "zz").2.2 rfl, (delete_returns_success emptyDB "zz").1⟩

/-- C10: the `technicianUpdated` field of the `PUT /problems/:id` response is
true exactly when the requested status is `solved` and the problem's stored
`assignedTechnician` was truthy before the update, independent of the peer
availability call's success and of whether the technician document exists. -/
theorem put_technicianUpdated_flag (db : DB) (pid status : String) (now : Nat) (peerOk : Bool)
    (p : Problem) (h : lookupProblem db.problems pid = some p) :
    (putProblem db pid status now peerOk).response.technicianUpdated
      = ((status == "solved") && truthyOpt p.assignedTechnician) ∧
    (p.assignedTechnician ≠ some "" →
      ((putProblem db pid status now peerOk).response.technicianUpdated = true ↔
        status = "solved" ∧ p.assignedTechnician.isSome = true)) ∧
    (putProblem db pid status now peerOk).response
      = (putProblem db pid status now (!peerOk)).response ∧
    (putProblem { users := [], problems := db.problems } pid status now peerOk).response
      = (putProblem db pid status now peerOk).response := by
  have h1 : (putProblem db pid status now peerOk).response.technicianUpdated
      = ((status == "solved") && truthyOpt p.assignedTechnician) := by
    simp [putProblem, h]
  refine ⟨h1, ?_, rfl, rfl⟩
  intro hne
  rw [h1]
  cases hpa : p.assignedTechnician with
  | none => simp [truthyOpt]
  | some s =>
    have hs : s ≠ "" := by
      intro hs0
      rw [hpa, hs0] at hne
      exact hne rfl
    have hsb : (s == "") = false := beq_eq_false_iff_ne.mpr hs
    simp [truthyOpt, hsb, beq_iff_eq]

/-- Witness for C10: solving the assigned problem `p1` reports
`technicianUpdated = true`. -/
theorem put_technicianUpdated_flag_witness :
    (putProblem exDB6 "p1" "solved" 12 true).response.technicianUpdated = true := by
  have h := (put_technicianUpdated_flag exDB6 "p1" "solved" 12 true solvedProblem rfl).2.1
    (by decide)
  exact h.mpr ⟨rfl, rfl⟩

end ProblemService
